import Mathlib

/-!
Verification of the llmchat semantic-memory services.

This file shallowly embeds the two Python services of the repository:
`src/services/qdrant_server.py` (classification-and-routing pipeline over a
Qdrant vector store) and `src/services/embedding_server.py` (the
filesystem-fallback store and the multi-namespace search aggregator).

External collaborators (the sentence-transformer embedder, the cosine
similarity of the vector store, the local generative model, and the random
uuid4 suffix source) are taken as parameters of the embedded operations;
everything the services themselves compute is translated directly from the
Python source.
-/

namespace LlmChat

/-! ## String utilities

Python `str.lower()` is modelled by mapping `Char.toLower` (all keywords and
all claim-relevant text are ASCII), and Python substring containment
`needle in hay` by `listContainsSub`. -/

/-- Containment of `needle` as a contiguous sublist of `hay`,
the model of the Python `in` operator on strings. -/
def listContainsSub (needle : List Char) : List Char → Bool
  | [] => needle.isEmpty
  | c :: rest => needle.isPrefixOf (c :: rest) || listContainsSub needle rest

/-- Python `needle in hay` on strings. -/
def strContains (hay needle : String) : Bool :=
  listContainsSub needle.toList hay.toList

/-- Python `s.lower()` (ASCII). -/
def pyLower (s : String) : String := String.mk (s.toList.map Char.toLower)

/-- Python `s.strip()`: drop whitespace from both ends. -/
def pyStrip (s : String) : String :=
  String.mk (((s.toList.dropWhile Char.isWhitespace).reverse.dropWhile
    Char.isWhitespace).reverse)

/-! ## Content classifier (`process_memory_with_llm`, qdrant_server.py lines 149-260) -/

/-- The fixed exclusion keyword list of `process_memory_with_llm` (and
duplicated in `index_documents`), qdrant_server.py lines 162-168. -/
def excludeKeywords : List String :=
  [ "opened", "launched", "executed", "tool call", "browser", "chrome", "firefox",
    "youtube", "website", "application", "window", "tab", "workspace", "desktop",
    "search results", "fetched content", "web search", "found information",
    "successfully", "completed", "finished", "already ran", "previously executed",
    "current session", "right now", "at the moment", "temporary", "cache" ]

/-- Python `any(keyword in text_lower for keyword in exclude_keywords)`
with `text_lower = text.lower()`. -/
def hasExcludeKeyword (text : String) : Bool :=
  excludeKeywords.any (fun kw => strContains (pyLower text) kw)

/-- A volatile memory entry as returned by the classifier
(a dict with `text` and `expires_at`); the volatile category is currently
always empty in the source. -/
structure VolMem where
  text : String
  expiresAt : Option String
deriving DecidableEq, Repr

/-- The categorized result of `process_memory_with_llm`. -/
structure MemCats where
  personal : List String
  worldFacts : List String
  volatile : List VolMem
deriving DecidableEq, Repr

/-- The all-empty classification result. -/
def emptyCats : MemCats := ⟨[], [], []⟩

/-- The first-pass prompt of `process_memory_with_llm`
(qdrant_server.py lines 181-195). -/
def personalPrompt (text : String) : String :=
  "Analyze the following conversation and extract ONLY significant personal information about the USER. Focus ONLY on:\n- Where they live (specific city, state, country)\n- Strong personal preferences (favorite things, dislikes)\n- Important personal circumstances (job, family, major life events)\n- Significant skills or expertise they mention\n- Important goals or plans they share\n\nIGNORE: tool usage, browser actions, temporary requests, search queries, weather questions, or casual conversation.\n\nConversation: "
    ++ text
    ++ "\n\nExtract 1-2 key personal insights ONLY if they are significant and lasting. If no important personal information is found, respond with \"NONE\".\n\nPersonal insights:\n1. "

/-- The second-pass prompt of `process_memory_with_llm`
(qdrant_server.py lines 215-228). -/
def worldFactsPrompt (text : String) : String :=
  "Analyze the following conversation and extract ONLY important factual information. Focus ONLY on:\n- Significant historical facts or events\n- Important scientific or technical information\n- Educational content or explanations\n- Geographical or cultural information\n\nIGNORE: current events, weather, news, search results, tool outputs, temporary information, or casual conversation.\n\nConversation: "
    ++ text
    ++ "\n\nExtract important facts ONLY if they are educational and lasting. If no important facts are found, respond with \"NONE\".\n\nFacts:\n1. "

/-- Acceptance test applied to a stripped generative-pass output:
nonempty, not the literal NONE, longer than 20 characters, and free of
exclusion keywords (qdrant_server.py lines 209-211 and 242-244). -/
def acceptExtract (t : String) : Bool :=
  t != "" && t != "NONE" && decide (20 < t.length) && !(hasExcludeKeyword t)

/-- A generative model handle: prompt to completion text, `none` meaning the
call raised (the other call parameters of the source are fixed constants). -/
abbrev LlmFn := String → Option String

/-- Shallow embedding of `process_memory_with_llm` (qdrant_server.py lines
149-260).  The first component is the returned category dict; the second
counts how many generative calls were issued.  `llm = none` models the
branch where loading the model failed; a `none` completion models an
exception inside a generative call, which the source catches to return the
all-empty result. -/
def processMemoryWithLlm (llm : Option LlmFn) (text : String) : MemCats × Nat :=
  match llm with
  | none => (emptyCats, 0)
  | some gen =>
    if hasExcludeKeyword text then (emptyCats, 0)
    else if text.length < 100 then (emptyCats, 0)
    else
      match gen (personalPrompt text) with
      | none => (emptyCats, 1)
      | some personalRaw =>
        let personalText := pyStrip personalRaw
        let personalMemories := if acceptExtract personalText then [personalText] else []
        match gen (worldFactsPrompt text) with
        | none => (emptyCats, 2)
        | some factsRaw =>
          let factsText := pyStrip factsRaw
          let worldMemories := if acceptExtract factsText then [factsText] else []
          (⟨personalMemories, worldMemories, []⟩, 2)

/-! ## Deterministic point ids (`uuid.uuid5(uuid.NAMESPACE_DNS, doc['id'])`)

The Python stdlib `uuid.uuid5` is SHA-1 of the namespace UUID bytes followed
by the UTF-8 name, with version and variant bits set.  It is implemented
here executably over `Nat` with explicit mod `2 ^ 32`. -/

/-- Truncation to a 32-bit word. -/
def w32 (n : Nat) : Nat := n % 4294967296

/-- Bitwise complement within 32 bits (valid for `n < 2 ^ 32`). -/
def not32 (n : Nat) : Nat := 4294967295 - n

/-- Left rotation of a 32-bit word by `k` bits. -/
def rotl (k n : Nat) : Nat := w32 (n * 2 ^ k) + n / 2 ^ (32 - k)

/-- UTF-8 bytes of a character. -/
def charUtf8 (c : Char) : List Nat :=
  let n := c.toNat
  if n < 0x80 then [n]
  else if n < 0x800 then [0xC0 + n / 64, 0x80 + n % 64]
  else if n < 0x10000 then [0xE0 + n / 4096, 0x80 + n / 64 % 64, 0x80 + n % 64]
  else [0xF0 + n / 262144, 0x80 + n / 4096 % 64, 0x80 + n / 64 % 64, 0x80 + n % 64]

/-- UTF-8 bytes of a string. -/
def utf8Bytes (s : String) : List Nat := s.toList.flatMap charUtf8

/-- Split a byte list into 64-byte blocks. -/
def toBlocks (l : List Nat) : List (List Nat) :=
  if h : l = [] then []
  else l.take 64 :: toBlocks (l.drop 64)
termination_by l.length
decreasing_by
  simp only [List.length_drop]
  exact Nat.sub_lt (List.length_pos.mpr h) (by omega)

/-- Big-endian 32-bit words from bytes. -/
def bytesToWords : List Nat → List Nat
  | b0 :: b1 :: b2 :: b3 :: rest => (((b0 * 256 + b1) * 256 + b2) * 256 + b3) :: bytesToWords rest
  | _ => []

/-- SHA-1 message-schedule extension from 16 to 80 words. -/
def sha1Schedule (ws : List Nat) : List Nat :=
  (List.range 64).foldl
    (fun acc _ =>
      let n := acc.length
      acc ++ [rotl 1 ((acc.getD (n - 3) 0) ^^^ (acc.getD (n - 8) 0) ^^^
                      (acc.getD (n - 14) 0) ^^^ (acc.getD (n - 16) 0))])
    ws

/-- SHA-1 round function and constant for round `t`. -/
def sha1FK (t b c d : Nat) : Nat × Nat :=
  if t < 20 then ((b &&& c) ||| (not32 b &&& d), 0x5A827999)
  else if t < 40 then (b ^^^ c ^^^ d, 0x6ED9EBA1)
  else if t < 60 then ((b &&& c) ||| (b &&& d) ||| (c &&& d), 0x8F1BBCDC)
  else (b ^^^ c ^^^ d, 0xCA62C1D6)

/-- SHA-1 compression of a single 64-byte block. -/
def sha1Block (h : Nat × Nat × Nat × Nat × Nat) (block : List Nat) :
    Nat × Nat × Nat × Nat × Nat :=
  let ws := sha1Schedule (bytesToWords block)
  let (h0, h1, h2, h3, h4) := h
  let (a, b, c, d, e) :=
    (List.range 80).foldl
      (fun st t =>
        let (a, b, c, d, e) := st
        let (f, k) := sha1FK t b c d
        let temp := w32 (rotl 5 a + f + e + k + ws.getD t 0)
        (temp, a, rotl 30 b, c, d))
      (h0, h1, h2, h3, h4)
  (w32 (h0 + a), w32 (h1 + b), w32 (h2 + c), w32 (h3 + d), w32 (h4 + e))

/-- Big-endian 8-byte encoding. -/
def be8 (n : Nat) : List Nat :=
  [n / 2 ^ 56 % 256, n / 2 ^ 48 % 256, n / 2 ^ 40 % 256, n / 2 ^ 32 % 256,
   n / 2 ^ 24 % 256, n / 2 ^ 16 % 256, n / 2 ^ 8 % 256, n % 256]

/-- Big-endian 4-byte encoding. -/
def be4 (n : Nat) : List Nat :=
  [n / 2 ^ 24 % 256, n / 2 ^ 16 % 256, n / 2 ^ 8 % 256, n % 256]

/-- SHA-1 padding. -/
def sha1Pad (msg : List Nat) : List Nat :=
  let z := (119 - msg.length % 64) % 64
  msg ++ [128] ++ List.replicate z 0 ++ be8 (msg.length * 8)

/-- SHA-1 digest (20 bytes) of a byte list. -/
def sha1 (msg : List Nat) : List Nat :=
  let (h0, h1, h2, h3, h4) :=
    (toBlocks (sha1Pad msg)).foldl sha1Block
      (0x67452301, 0xEFCDAB89, 0x98BADCFE, 0x10325476, 0xC3D2E1F0)
  be4 h0 ++ be4 h1 ++ be4 h2 ++ be4 h3 ++ be4 h4

/-- The bytes of `uuid.NAMESPACE_DNS`. -/
def dnsNamespaceBytes : List Nat :=
  [0x6b, 0xa7, 0xb8, 0x10, 0x9d, 0xad, 0x11, 0xd1,
   0x80, 0xb4, 0x00, 0xc0, 0x4f, 0xd4, 0x30, 0xc8]

/-- One hex digit. -/
def hexDigit (n : Nat) : Char :=
  if n < 10 then Char.ofNat (48 + n) else Char.ofNat (87 + n)

/-- Two lowercase hex digits of a byte. -/
def hexByte (n : Nat) : String :=
  String.mk [hexDigit (n / 16), hexDigit (n % 16)]

/-- Hex string of a byte list. -/
def hexBytes (l : List Nat) : String := String.join (l.map hexByte)

/-- Python `str(uuid.uuid5(uuid.NAMESPACE_DNS, name))`: SHA-1 of the DNS
namespace bytes followed by the UTF-8 name, truncated to 16 bytes with RFC
4122 version-5 and variant bits set, rendered 8-4-4-4-12. -/
def uuid5dns (name : String) : String :=
  let h := (sha1 (dnsNamespaceBytes ++ utf8Bytes name)).take 16
  let b := (h.set 6 ((h.getD 6 0 &&& 0x0F) ||| 0x50)).set 8 ((h.getD 8 0 &&& 0x3F) ||| 0x80)
  hexBytes (b.take 4) ++ "-" ++ hexBytes ((b.drop 4).take 2) ++ "-" ++
    hexBytes ((b.drop 6).take 2) ++ "-" ++ hexBytes ((b.drop 8).take 2) ++ "-" ++
    hexBytes (b.drop 10)

/-! ## Qdrant store model (qdrant_server.py)

Collections are kept in creation order as an association list; a payload is
an association list of string keys to typed values, mirroring the point
payload dicts built by `index_documents`. -/

/-- A payload value. -/
inductive PVal where
  | s (v : String)
  | b (v : Bool)
  | i (v : Int)
  | ctx (v : List (String × String))
deriving DecidableEq, Repr

/-- A point payload: string keys to values. -/
abbrev Payload := List (String × PVal)

/-- A stored point. -/
structure Point where
  pid : String
  vec : List ℚ
  payload : Payload
deriving DecidableEq, Repr

/-- A collection: configured vector size plus stored points. -/
structure Collection where
  dim : Nat
  points : List Point
deriving DecidableEq, Repr

/-- The vector store: named collections in creation order. -/
abbrev QStore := List (String × Collection)

/-- Replace the entry for `name` (present by assumption of the caller). -/
def setCol (st : QStore) (name : String) (c : Collection) : QStore :=
  st.map (fun p => if p.1 = name then (name, c) else p)

/-- Shallow embedding of `ensure_collection` (qdrant_server.py lines
270-298): present with the expected size 384 means no change; a size
mismatch deletes and recreates; absent creates fresh. -/
def ensureCollection (st : QStore) (name : String) : QStore :=
  match st.lookup name with
  | some c => if c.dim ≠ 384 then setCol st name ⟨384, []⟩ else st
  | none => st ++ [(name, ⟨384, []⟩)]

/-- Qdrant upsert of a single point into a point list: replace the point
with the same id if present, otherwise append. -/
def upsertPoint (pts : List Point) (p : Point) : List Point :=
  if pts.any (fun q => q.pid == p.pid) then
    pts.map (fun q => if q.pid == p.pid then p else q)
  else pts ++ [p]

/-- Qdrant upsert of a batch. -/
def upsertPoints (pts : List Point) (batch : List Point) : List Point :=
  batch.foldl upsertPoint pts

/-- `client.upsert(collection_name, points)`: the handlers only upsert into
collections they have ensured, so a missing collection leaves the store
unchanged. -/
def upsert (st : QStore) (name : String) (batch : List Point) : QStore :=
  match st.lookup name with
  | some c => setCol st name ⟨c.dim, upsertPoints c.points batch⟩
  | none => st

/-! ## Document router / indexer (`index_documents`, qdrant_server.py lines 358-560) -/

/-- A request document (`doc` dict).  The request namespace is reassigned by
the handler; `nspace` holds the document namespace field. -/
structure Doc where
  id : String
  text : String
  nspace : String
  context : List (String × String)
  memoryType : Option String
deriving DecidableEq, Repr

/-- An embedder handle: `model.encode` on one text. -/
abbrev EmbedFn := String → List ℚ

/-- A random-suffix source modelling `uuid.uuid4().hex[:8]`; the `Nat`
argument is a draw counter threaded through the handler. -/
abbrev RndFn := Nat → String

/-- Derived documents for the personal category (qdrant_server.py lines
420-429): one per extracted personal memory passing the strip/length gate,
with text replaced, a fresh suffixed id, namespace `user_info` and memory
type `personal`. -/
def derivePersonal (doc : Doc) (mems : List String) (rnd : RndFn) (ctr : Nat) :
    List Doc × Nat :=
  mems.foldl
    (fun acc m =>
      if pyStrip m != "" && decide (20 < m.length) then
        (acc.1 ++ [{ doc with
                      text := m
                      id := doc.id ++ "_personal_" ++ rnd acc.2
                      nspace := "user_info"
                      memoryType := some "personal" }], acc.2 + 1)
      else acc)
    ([], ctr)

/-- Derived documents for the world-fact category (qdrant_server.py lines
431-440). -/
def deriveWorld (doc : Doc) (mems : List String) (rnd : RndFn) (ctr : Nat) :
    List Doc × Nat :=
  mems.foldl
    (fun acc m =>
      if pyStrip m != "" && decide (20 < m.length) then
        (acc.1 ++ [{ doc with
                      text := m
                      id := doc.id ++ "_world_" ++ rnd acc.2
                      nspace := "world_facts"
                      memoryType := some "world_fact" }], acc.2 + 1)
      else acc)
    ([], ctr)

/-- Derived documents for the volatile category (qdrant_server.py lines
442-456); the classifier currently always returns an empty volatile list,
so this loop is dead code retained for fidelity. -/
def deriveVolatile (doc : Doc) (mems : List VolMem) (rnd : RndFn) (ctr : Nat) :
    List Doc × Nat :=
  mems.foldl
    (fun acc m =>
      if pyStrip m.text != "" && decide (20 < m.text.length) then
        (acc.1 ++ [{ doc with
                      text := m.text
                      id := doc.id ++ "_volatile_" ++ rnd acc.2
                      nspace := "volatile_info"
                      memoryType := some "volatile"
                      context := doc.context ++
                        [("is_volatile", "true"), ("expires_at", m.expiresAt.getD "")] }],
         acc.2 + 1)
      else acc)
    ([], ctr)

/-- All derived documents of one classified raw-memory document, in source
order: personal, then world facts, then volatile. -/
def deriveAll (doc : Doc) (cats : MemCats) (rnd : RndFn) (ctr : Nat) :
    List Doc × Nat :=
  let (p, c1) := derivePersonal doc cats.personal rnd ctr
  let (w, c2) := deriveWorld doc cats.worldFacts rnd c1
  let (v, c3) := deriveVolatile doc cats.volatile rnd c2
  (p ++ w ++ v, c3)

/-- One iteration of the per-document processing loop of `index_documents`
(qdrant_server.py lines 390-470).  Raw-memory namespaces (`memories`,
`llm_memories`) pass the keyword and length gates, are classified, and
expand to their derived documents (possibly none: the document is
dropped); any other namespace passes the document through with its
namespace field set to the request namespace. -/
def processStep (llm : Option LlmFn) (rnd : RndFn) (reqNs : String)
    (acc : List Doc × Nat) (doc : Doc) : List Doc × Nat :=
  if reqNs = "memories" ∨ reqNs = "llm_memories" then
    if hasExcludeKeyword doc.text then acc
    else if doc.text.length < 100 then acc
    else
      let cats := (processMemoryWithLlm llm doc.text).1
      let (derived, c) := deriveAll doc cats rnd acc.2
      (acc.1 ++ derived, c)
  else (acc.1 ++ [{ doc with nspace := reqNs }], acc.2)

/-- The per-document processing loop of `index_documents`. -/
def processDocs (llm : Option LlmFn) (rnd : RndFn) (reqNs : String)
    (docs : List Doc) : List Doc × Nat :=
  docs.foldl (processStep llm rnd reqNs) ([], 0)

/-- Point construction (qdrant_server.py lines 500-516): the point id is
`uuid5` of the document id alone, and the payload records text, original
id, document namespace, context and the `processed` flag. -/
def mkPoint (embed : EmbedFn) (doc : Doc) : Point :=
  { pid := uuid5dns doc.id
    vec := embed doc.text
    payload :=
      [ ("text", PVal.s doc.text),
        ("original_id", PVal.s doc.id),
        ("namespace", PVal.s doc.nspace),
        ("context", PVal.ctx doc.context),
        ("processed", PVal.b (doc.nspace = "memories" ∨ doc.nspace = "llm_memories" : Bool)) ] }

/-- The structured response of the index endpoint. -/
structure IndexResp where
  status : String
  count : Nat
  httpCode : Nat
  error : Option String
deriving DecidableEq, Repr

/-- Shallow embedding of the `/index` handler `index_documents`
(qdrant_server.py lines 358-560): ensure the request collection, run the
per-document processing loop, ensure every namespace occurring among the
processed documents, embed, build points, and either report the empty batch
as an error (HTTP 400) or upsert the whole batch into the collection named
by the request namespace and report success. -/
def indexDocuments (llm : Option LlmFn) (embed : EmbedFn) (rnd : RndFn)
    (reqNs : String) (docs : List Doc) (st : QStore) : IndexResp × QStore :=
  let st1 := ensureCollection st reqNs
  let pdocs := (processDocs llm rnd reqNs docs).1
  let needed := (pdocs.map (fun d => d.nspace)).eraseDups
  let st2 := needed.foldl ensureCollection st1
  let points := pdocs.map (mkPoint embed)
  if points.isEmpty then
    (⟨"error", 0, 400, some "No valid points to index after processing"⟩, st2)
  else
    (⟨"success", points.length, 200, none⟩, upsert st2 reqNs points)

/-! ## Qdrant search (`search_documents`, qdrant_server.py lines 562-649)

Stable descending sorting by score models both the similarity ordering of
`client.query_points` and (later) Python `list.sort(key=score, reverse=True)`,
which is a stable sort: any two stable sorts on the same key agree. -/

/-- Descending-by-second-component ordering on scored items. -/
def scoreGE {α : Type} (a b : α × ℚ) : Prop := b.2 ≤ a.2

instance {α : Type} : DecidableRel (@scoreGE α) := fun a b => inferInstanceAs (Decidable (b.2 ≤ a.2))

instance {α : Type} : IsTotal (α × ℚ) scoreGE := ⟨fun a b => le_total b.2 a.2⟩

instance {α : Type} : IsTrans (α × ℚ) scoreGE := ⟨fun _ _ _ h1 h2 => le_trans h2 h1⟩

/-- Stable descending sort of scored items. -/
def sortByScoreDesc {α : Type} (l : List (α × ℚ)) : List (α × ℚ) :=
  l.insertionSort scoreGE

/-- Model of `client.query_points(collection_name, query, limit,
score_threshold)`: score every point of the collection against the query
vector with the store cosine similarity `cos`, keep those at or above the
threshold, and return the best `limit` in descending score order. -/
def queryPoints (cos : List ℚ → List ℚ → ℚ) (pts : List Point) (qv : List ℚ)
    (limit : Nat) (threshold : ℚ) : List (Point × ℚ) :=
  (sortByScoreDesc ((pts.map (fun p => (p, cos qv p.vec))).filter
    (fun pc => threshold ≤ pc.2))).take limit

/-- A formatted search result (qdrant_server.py lines 613-618). -/
structure SearchRes where
  id : String
  text : String
  score : ℚ
  context : List (String × String)
deriving DecidableEq, Repr

/-- Result formatting of the search handler: point id, payload text
(defaulting to empty), score, payload context (defaulting to empty). -/
def formatResult (pc : Point × ℚ) : SearchRes :=
  { id := pc.1.pid
    text := match pc.1.payload.lookup "text" with
            | some (PVal.s t) => t
            | _ => ""
    score := pc.2
    context := match pc.1.payload.lookup "context" with
               | some (PVal.ctx c) => c
               | _ => [] }

/-- The structured response of the search endpoint. -/
structure SearchResp where
  status : String
  results : List SearchRes
  httpCode : Nat
deriving DecidableEq, Repr

/-- Shallow embedding of the `/search` handler `search_documents`
(qdrant_server.py lines 562-649): embed the query, query the single named
collection with `limit = top_k` and `score_threshold = min_score`, format
the results; a failing store query (here: a missing collection) is caught
and reported as an error with empty results. -/
def searchDocuments (embed : EmbedFn) (cos : List ℚ → List ℚ → ℚ) (st : QStore)
    (query ns : String) (topK : Nat) (minScore : ℚ) : SearchResp :=
  let qv := embed query
  match st.lookup ns with
  | none => ⟨"error", [], 500⟩
  | some col => ⟨"success", (queryPoints cos col.points qv topK minScore).map formatResult, 200⟩

/-! ## Reset (`reset_memory`, qdrant_server.py lines 680-716) -/

/-- The point filter used by the reset handler: a payload field `id` whose
integer value is one of `range(1000000)` (the `FieldCondition` with
`MatchAny(any=list(range(1000000)))`). -/
def matchesResetFilter (p : Point) : Bool :=
  match p.payload.lookup "id" with
  | some (PVal.i n) => decide (0 ≤ n ∧ n < 1000000)
  | _ => false

/-- Shallow embedding of the `/reset` handler `reset_memory`: every
collection except `llm_memories` has the points matching the filter
deleted; `llm_memories` is skipped. -/
def resetMemory (st : QStore) : QStore :=
  st.map (fun nc =>
    if nc.1 = "llm_memories" then nc
    else (nc.1, ⟨nc.2.dim, nc.2.points.filter (fun p => !matchesResetFilter p)⟩))

/-- Point count of a named collection (0 when absent), as reported by the
status endpoint. -/
def colPointCount (st : QStore) (name : String) : Nat :=
  ((st.lookup name).map (fun c => c.points.length)).getD 0

/-! ## Filesystem-fallback store and search aggregator (embedding_server.py)

The two module dicts `documents_store` and `embeddings_store` are written in
lockstep by the index handler (`documents_store[namespace] = documents`;
`embeddings_store[namespace] = model.encode(texts)`), so the store is
modelled as one association list from namespace to the documents paired
with their embeddings. -/

/-- A fallback-store document: the fields the handlers read. -/
structure EDoc where
  id : String
  text : String
deriving DecidableEq, Repr

/-- The fallback store: namespace to documents paired with embeddings. -/
abbrev EStore := List (String × List (EDoc × List ℚ))

/-- Python dict assignment `store[ns] = v`: replace or append. -/
def setEntry (st : EStore) (ns : String) (v : List (EDoc × List ℚ)) : EStore :=
  if st.any (fun p => p.1 == ns) then
    st.map (fun p => if p.1 = ns then (ns, v) else p)
  else st ++ [(ns, v)]

/-- Shallow embedding of the fallback `/index` handler `index_documents`
(embedding_server.py lines 154-187): the namespace entry is assigned the
submitted batch (with embeddings computed by one `model.encode` call over
the texts), and the reported count is the length of the submitted list. -/
def eIndex (encode : EmbedFn) (st : EStore) (ns : String) (docs : List EDoc) :
    EStore × Nat :=
  (setEntry st ns (docs.map (fun d => (d, encode d.text))), docs.length)

/-- A search-aggregator result (embedding_server.py lines 231-236). -/
structure ESearchRes where
  nspace : String
  id : String
  text : String
  score : ℚ
deriving DecidableEq, Repr

/-- Descending-score ordering on aggregator results. -/
def resGE (a b : ESearchRes) : Prop := b.score ≤ a.score

instance : DecidableRel resGE := fun a b => inferInstanceAs (Decidable (b.score ≤ a.score))

instance : IsTotal ESearchRes resGE := ⟨fun a b => le_total b.score a.score⟩

instance : IsTrans ESearchRes resGE := ⟨fun _ _ _ h1 h2 => le_trans h2 h1⟩

/-- Stable descending sort of aggregator results, the model of Python
`all_results.sort(key=lambda x: x['score'], reverse=True)`, which is
stable. -/
def sortResDesc (l : List ESearchRes) : List ESearchRes :=
  l.insertionSort resGE

/-- One iteration of the per-namespace loop of the fallback `/search`
handler (embedding_server.py lines 211-236): a namespace missing from the
store contributes nothing, an empty namespace contributes nothing, and
otherwise the namespace contributes its `min(top_k, len(documents))`
highest-scoring documents (descending, ties by index as delivered by
`torch.topk`), keeping only scores strictly above `0.1`. -/
def perNamespaceResults (cos : List ℚ → List ℚ → ℚ) (qv : List ℚ) (st : EStore)
    (topK : Nat) (ns : String) : List ESearchRes :=
  match st.lookup ns with
  | none => []
  | some scoredDocs =>
    if scoredDocs.length = 0 then []
    else
      let cosScores := scoredDocs.map (fun de => (de.1, cos qv de.2))
      let nsTopK := min topK scoredDocs.length
      (((sortByScoreDesc cosScores).take nsTopK).filter
        (fun ds => mkRat 1 10 < ds.2)).map
        (fun ds => ⟨ns, ds.1.id, ds.1.text, ds.2⟩)

/-- Shallow embedding of the fallback `/search` handler `search`
(embedding_server.py lines 189-251): the query is embedded once, each
requested namespace appends its contribution to the accumulated result
list, and the accumulated list is stably sorted by score descending and
truncated to `top_k`.  The second component counts `model.encode` calls
issued for the query. -/
def eSearch (encode : EmbedFn) (cos : List ℚ → List ℚ → ℚ) (st : EStore)
    (query : String) (namespaces : List String) (topK : Nat) :
    List ESearchRes × Nat :=
  let qv := encode query
  let allResults := namespaces.foldl
    (fun acc ns => acc ++ perNamespaceResults cos qv st topK ns) []
  ((sortResDesc allResults).take topK, 1)

/-- The declarative merged candidate list: the concatenation, in namespace
order, of every per-namespace contribution. -/
def mergedCandidates (cos : List ℚ → List ℚ → ℚ) (qv : List ℚ) (st : EStore)
    (topK : Nat) (namespaces : List String) : List ESearchRes :=
  namespaces.flatMap (perNamespaceResults cos qv st topK)

/-! ## Concrete instances used by witnesses and counterexamples -/

/-- A trivial embedder. -/
def embed0 : EmbedFn := fun _ => [1]

/-- A deterministic suffix source standing in for `uuid.uuid4().hex[:8]`. -/
def rnd0 : RndFn := fun n => "r" ++ toString n

/-- A 133-character durable personal statement, free of exclusion
keywords. -/
def text130 : String :=
  "I have lived in Lisbon Portugal for the past decade and I work as a marine biologist studying the Atlantic coastline and its ecology."

/-- The personal insight the concrete generative model extracts from
`text130`. -/
def personalOut : String :=
  "The user lives in Lisbon Portugal and works as a marine biologist."

/-- A concrete generative model: a personal insight for the personal pass
on `text130`, NONE everywhere else. -/
def llmC1 : Option LlmFn :=
  some (fun p => if p = personalPrompt text130 then some personalOut else some "NONE")

/-- The raw-memory request document of the C1 scenario. -/
def docM1 : Doc := ⟨"m1", text130, "memories", [], none⟩

/-- The result of indexing `docM1` under namespace `memories` on an empty
store. -/
def c1out : IndexResp × QStore := indexDocuments llmC1 embed0 rnd0 "memories" [docM1] []

/-- A short raw-memory document (fails the length gate). -/
def docShort : Doc := ⟨"d1", "hi", "memories", [], none⟩

/-- A pass-through document with id `x`. -/
def docX : Doc := ⟨"x", "some text", "tools", [], none⟩

/-- The same id indexed with different text. -/
def docX2 : Doc := ⟨"x", "replacement text", "tools", [], none⟩

/-- A typical stored payload as built by the indexer (no `id` key). -/
def payA : Payload :=
  [("text", PVal.s "alpha"), ("original_id", PVal.s "a"),
   ("namespace", PVal.s "memories"), ("context", PVal.ctx []),
   ("processed", PVal.b true)]

/-- A store holding one point in each of three collections. -/
def c2Store : QStore :=
  [("memories", ⟨384, [⟨"p1", [1], payA⟩]⟩),
   ("llm_memories", ⟨384, [⟨"p2", [1], payA⟩]⟩),
   ("tools", ⟨384, [⟨"p3", [1], payA⟩]⟩)]

/-- The fallback store of the C4 merge example: namespace `A` scores
`[mkRat 9 10, mkRat 1 2]` and namespace `B` scores `[mkRat 4 5, mkRat 7 10]` under `exCos`. -/
def exStore : EStore :=
  [("A", [(⟨"a1", "ta1"⟩, [mkRat 9 10]), (⟨"a2", "ta2"⟩, [mkRat 1 2])]),
   ("B", [(⟨"b1", "tb1"⟩, [mkRat 4 5]), (⟨"b2", "tb2"⟩, [mkRat 7 10])])]

/-- A cosine stand-in reading the score off the stored vector. -/
def exCos : List ℚ → List ℚ → ℚ := fun _ e => e.headD 0

/-! ## Supporting lemmas -/

/-- Accumulating appends in a left fold is concatenation of the pieces. -/
theorem foldl_append_eq_flatMap {α β : Type} (f : α → List β) :
    ∀ (l : List α) (init : List β),
      l.foldl (fun acc x => acc ++ f x) init = init ++ l.flatMap f
  | [], init => by simp
  | x :: xs, init => by
    simp [List.foldl_cons, foldl_append_eq_flatMap f xs, List.append_assoc]

/-- A processing step with all-empty classification leaves the accumulator
unchanged on a raw-memory namespace. -/
theorem processStep_drop (llm : Option LlmFn) (rnd : RndFn) (d : Doc)
    (acc : List Doc × Nat)
    (hcats : (processMemoryWithLlm llm d.text).1 = emptyCats) :
    processStep llm rnd "memories" acc d = acc := by
  unfold processStep
  by_cases hk : hasExcludeKeyword d.text
  · simp [hk]
  · by_cases hl : d.text.length < 100
    · simp [hk, hl]
    · simp [hk, hl, hcats, deriveAll, derivePersonal, deriveWorld, deriveVolatile, emptyCats]

/-! ## Claim theorems -/

/-- C7: for every input text that contains an exclusion keyword
(case-insensitively) or is shorter than 100 characters, the classifier
returns all-empty categories and issues no generative call. -/
theorem c7_heuristic_gate (llm : Option LlmFn) (text : String)
    (h : hasExcludeKeyword text = true ∨ text.length < 100) :
    processMemoryWithLlm llm text = (emptyCats, 0) := by
  cases llm with
  | none => rfl
  | some gen =>
    unfold processMemoryWithLlm
    by_cases hk : hasExcludeKeyword text
    · simp [hk]
    · rcases h with h | h
      · exact absurd h hk
      · simp [hk, h]

/-- Witness for C7: the two-character text `hi` is gated out with zero
generative calls. -/
theorem c7_witness :
    processMemoryWithLlm (some (fun _ => some "irrelevant")) "hi" = (emptyCats, 0) :=
  c7_heuristic_gate _ _ (Or.inr (by decide))

/-- C8: a failure of either generative call makes the classifier return
all-empty categories; in the index pipeline such a document contributes
nothing (it is dropped) and the remaining documents of the batch are
processed exactly as if the failing document were absent. -/
theorem c8_classification_error_swallowed (gen : LlmFn) (rnd : RndFn)
    (d d2 : Doc)
    (h : gen (personalPrompt d.text) = none ∨ gen (worldFactsPrompt d.text) = none) :
    (processMemoryWithLlm (some gen) d.text).1 = emptyCats ∧
    (processDocs (some gen) rnd "memories" [d]).1 = [] ∧
    processDocs (some gen) rnd "memories" [d, d2] =
      processDocs (some gen) rnd "memories" [d2] := by
  have hcats : (processMemoryWithLlm (some gen) d.text).1 = emptyCats := by
    unfold processMemoryWithLlm
    by_cases hk : hasExcludeKeyword d.text
    · simp [hk, emptyCats]
    · by_cases hl : d.text.length < 100
      · simp [hk, hl, emptyCats]
      · rcases h with h | h
        · simp [hk, hl, h, emptyCats]
        · cases hp : gen (personalPrompt d.text) with
          | none => simp [hk, hl, hp, emptyCats]
          | some praw => simp [hk, hl, hp, h, emptyCats]
  have hstep : ∀ acc, processStep (some gen) rnd "memories" acc d = acc :=
    fun acc => processStep_drop (some gen) rnd d acc hcats
  refine ⟨hcats, ?_, ?_⟩
  · show (List.foldl (processStep (some gen) rnd "memories") ([], 0) [d]).1 = []
    rw [List.foldl_cons, hstep]
    rfl
  · show List.foldl (processStep (some gen) rnd "memories") ([], 0) [d, d2] =
      List.foldl (processStep (some gen) rnd "memories") ([], 0) [d2]
    rw [List.foldl_cons, hstep]

/-- Witness for C8: a generative model that always raises yields all-empty
classification for a gate-passing text and the document is dropped from the
batch. -/
theorem c8_witness :
    (processMemoryWithLlm (some (fun _ => none)) docM1.text).1 = emptyCats ∧
    (processDocs (some (fun _ => none)) rnd0 "memories" [docM1]).1 = [] ∧
    processDocs (some (fun _ => none)) rnd0 "memories" [docM1, docShort] =
      processDocs (some (fun _ => none)) rnd0 "memories" [docShort] :=
  c8_classification_error_swallowed _ rnd0 docM1 docShort (Or.inl rfl)

/-- Looking up a key after replacing its entry in place. -/
theorem lookup_map_replace (ns : String) (v : List (EDoc × List ℚ)) :
    ∀ (st : EStore), st.any (fun p => p.1 == ns) = true →
      (st.map (fun p => if p.1 = ns then (ns, v) else p)).lookup ns = some v
  | [], h => by simp at h
  | (k, w) :: rest, h => by
    by_cases hk : k = ns
    · subst hk
      have hmap : List.map (fun p => if p.1 = k then (k, v) else p) ((k, w) :: rest)
          = (k, v) :: List.map (fun p => if p.1 = k then (k, v) else p) rest := by simp
      rw [hmap, List.lookup_cons_self]
    · have hkb : (k == ns) = false := beq_eq_false_iff_ne.mpr hk
      have h' : rest.any (fun p => p.1 == ns) = true := by
        simp only [List.any_cons, hkb, Bool.false_or] at h
        exact h
      have hne : (ns == k) = false := by
        simp only [beq_eq_false_iff_ne]
        exact fun e => hk e.symm
      simp only [List.map_cons]
      rw [show (if ((k, w) : String × List (EDoc × List ℚ)).1 = ns then (ns, v) else (k, w)) = (k, w)
            from if_neg hk]
      simp only [List.lookup, hne]
      exact lookup_map_replace ns v rest h'

/-- Looking up a key appended at the end of a list not containing it. -/
theorem lookup_append_fresh (ns : String) (v : List (EDoc × List ℚ)) :
    ∀ (st : EStore), st.any (fun p => p.1 == ns) = false →
      (st ++ [(ns, v)]).lookup ns = some v
  | [], _ => by simp [List.lookup]
  | (k, w) :: rest, h => by
    simp only [List.any_cons, Bool.or_eq_false_iff] at h
    have hne : (ns == k) = false := by
      simp only [beq_eq_false_iff_ne]
      exact fun e => (ne_of_beq_false h.1) e.symm
    simp only [List.cons_append, List.lookup, hne]
    exact lookup_append_fresh ns v rest h.2

/-- Python dict assignment followed by lookup of the same key yields the
assigned value. -/
theorem lookup_setEntry (st : EStore) (ns : String) (v : List (EDoc × List ℚ)) :
    (setEntry st ns v).lookup ns = some v := by
  unfold setEntry
  by_cases hany : st.any (fun p => p.1 == ns) = true
  · simp only [hany, if_true]
    exact lookup_map_replace ns v st hany
  · simp only [Bool.not_eq_true] at hany
    simp only [hany, Bool.false_eq_true, if_false]
    exact lookup_append_fresh ns v st hany

/-- C10: the filesystem-fallback index replaces the whole namespace entry:
after `index(namespace, documents)` the documents stored under the
namespace are exactly the submitted batch (prior contents are discarded)
and the reported count is the length of the submitted list. -/
theorem c10_fallback_index_replaces (encode : EmbedFn) (st : EStore)
    (ns : String) (docs : List EDoc) :
    (eIndex encode st ns docs).2 = docs.length ∧
    ((eIndex encode st ns docs).1.lookup ns) =
      some (docs.map (fun d => (d, encode d.text))) ∧
    (((eIndex encode st ns docs).1.lookup ns).map (fun l => l.map Prod.fst)) =
      some docs := by
  refine ⟨rfl, lookup_setEntry st ns _, ?_⟩
  rw [show (eIndex encode st ns docs).1 = setEntry st ns (docs.map (fun d => (d, encode d.text))) from rfl,
     lookup_setEntry st ns _]
  show some ((docs.map (fun d => (d, encode d.text))).map Prod.fst) = some docs
  rw [List.map_map, show (Prod.fst ∘ fun d : EDoc => (d, encode d.text)) = id from rfl,
     List.map_id]

/-- C9: a requested namespace missing from the store contributes zero
results to the fallback search and does not fail it: the search over a
namespace list containing the missing namespace equals the search over the
same list with it removed. -/
theorem c9_missing_namespace_skipped (encode : EmbedFn)
    (cos : List ℚ → List ℚ → ℚ) (st : EStore) (q : String) (k : Nat)
    (ns : String) (ns1 ns2 : List String) (h : st.lookup ns = none) :
    eSearch encode cos st q (ns1 ++ ns :: ns2) k =
      eSearch encode cos st q (ns1 ++ ns2) k := by
  have hempty : perNamespaceResults cos (encode q) st k ns = [] := by
    unfold perNamespaceResults
    rw [h]
  simp only [eSearch]
  rw [List.foldl_append, List.foldl_append, List.foldl_cons, hempty, List.append_nil]

/-- Witness for C9: searching `["A", "Z"]` over the example store, where
`Z` does not exist, equals searching `["A"]`. -/
theorem c9_witness :
    eSearch embed0 exCos exStore "q" (["A"] ++ "Z" :: []) 2 =
      eSearch embed0 exCos exStore "q" (["A"] ++ []) 2 :=
  c9_missing_namespace_skipped embed0 exCos exStore "q" 2 "Z" ["A"] [] (by decide)

/-- C6: every result returned by the vector-store search carries a score at
least the caller-supplied `min_score`, because the store query is issued
with `score_threshold = min_score` and the handler adds nothing below it. -/
theorem c6_min_score_respected (embed : EmbedFn) (cos : List ℚ → List ℚ → ℚ)
    (st : QStore) (q ns : String) (topK : Nat) (minScore : ℚ) (r : SearchRes)
    (h : r ∈ (searchDocuments embed cos st q ns topK minScore).results) :
    minScore ≤ r.score := by
  simp only [searchDocuments] at h
  cases hl : st.lookup ns with
  | none =>
    rw [hl] at h
    simp at h
  | some col =>
    rw [hl] at h
    simp only [List.mem_map] at h
    rcases h with ⟨pc, hpc, hfmt⟩
    have h1 : pc ∈ sortByScoreDesc
        ((col.points.map (fun p => (p, cos (embed q) p.vec))).filter
          (fun x => minScore ≤ x.2)) := List.mem_of_mem_take hpc
    have h2 : pc ∈ (col.points.map (fun p => (p, cos (embed q) p.vec))).filter
        (fun x => minScore ≤ x.2) := by
      unfold sortByScoreDesc at h1
      exact (List.mem_insertionSort scoreGE).mp h1
    have h3 := List.of_mem_filter h2
    rw [← hfmt]
    exact of_decide_eq_true h3

/-- A one-point store for the C6 witness. -/
def c6Store : QStore := [("tools", ⟨384, [⟨"p1", [1], payA⟩]⟩)]

/-- A constant cosine stand-in. -/
def cos1 : List ℚ → List ℚ → ℚ := fun _ _ => 1

/-- Witness for C6: the single result of a concrete search with
`min_score = mkRat 1 2` scores at least that threshold. -/
theorem c6_witness : mkRat 1 2 ≤ (formatResult (⟨"p1", [1], payA⟩, 1)).score :=
  c6_min_score_respected embed0 cos1 c6Store "q" "tools" 3 (mkRat 1 2) _ (by decide)

/-- C4: the fallback search embeds the query once, lets each namespace
contribute at most `top_k` candidates, and returns the global `top_k` of
the score-descending stable sort of the concatenated candidates; on the
worked example (namespace `A` scoring `[9/10, 1/2]`, namespace `B` scoring
`[4/5, 7/10]`, `top_k = 2`) it returns the scores `[9/10, 4/5]`. -/
theorem c4_search_merge :
    (∀ (encode : EmbedFn) (cos : List ℚ → List ℚ → ℚ) (st : EStore)
       (q : String) (nss : List String) (k : Nat),
      (eSearch encode cos st q nss k).1 =
        (sortResDesc (mergedCandidates cos (encode q) st k nss)).take k ∧
      (eSearch encode cos st q nss k).1.Sorted resGE ∧
      (∀ ns, (perNamespaceResults cos (encode q) st k ns).length ≤ k) ∧
      (eSearch encode cos st q nss k).2 = 1) ∧
    (eSearch embed0 exCos exStore "q" ["A", "B"] 2).1.map (fun r => (r.id, r.score)) =
      [("a1", mkRat 9 10), ("b1", mkRat 4 5)] := by
  constructor
  · intro encode cos st q nss k
    refine ⟨?_, ?_, ?_, rfl⟩
    · show (sortResDesc (nss.foldl
          (fun acc ns => acc ++ perNamespaceResults cos (encode q) st k ns) [])).take k =
        (sortResDesc (mergedCandidates cos (encode q) st k nss)).take k
      rw [foldl_append_eq_flatMap, List.nil_append]
      rfl
    · show ((sortResDesc (nss.foldl
          (fun acc ns => acc ++ perNamespaceResults cos (encode q) st k ns) [])).take k).Sorted resGE
      exact List.Pairwise.take (List.sorted_insertionSort resGE _)
    · intro ns
      unfold perNamespaceResults
      cases hl : st.lookup ns with
      | none => simp
      | some sd =>
        by_cases hz : sd.length = 0
        · simp [hz]
        · simp only [hz, if_false]
          rw [List.length_map]
          refine le_trans (List.length_filter_le _ _) ?_
          refine le_trans (List.length_take_le _ _) ?_
          exact Nat.min_le_left k sd.length
  · decide

set_option maxRecDepth 100000 in
/-- C1 (divergence witness): indexing a classifiable 133-character personal
statement under the raw-memory namespace `memories` produces exactly one
derived point whose payload namespace field reads `user_info` and none
under `world_facts`, yet the point is upserted into the `memories`
collection while the ensured `user_info` collection stays empty: the
handler passes `collection_name=namespace` (the request namespace) to the
upsert. -/
theorem c1_derived_point_stored_in_request_namespace :
    c1out.1.status = "success" ∧
    ((c1out.2.lookup "memories").map
        (fun c => c.points.map (fun p => p.payload.lookup "namespace"))) =
      some [some (PVal.s "user_info")] ∧
    colPointCount c1out.2 "user_info" = 0 ∧
    colPointCount c1out.2 "memories" = 1 ∧
    c1out.2.lookup "world_facts" = none := by
  refine ⟨rfl, by decide, by decide, by decide, by decide⟩

/-- C2 (divergence witness): the reset handler deletes points through a
filter on a payload field `id` with integer values below one million, but
indexed points carry no such payload field, so the reset leaves every
collection — not only `llm_memories` — exactly as it was; in particular no
point produced by the indexer can ever match the filter. -/
theorem c2_reset_does_not_empty_namespaces :
    resetMemory c2Store = c2Store ∧
    colPointCount (resetMemory c2Store) "memories" = 1 ∧
    colPointCount (resetMemory c2Store) "tools" = 1 ∧
    colPointCount (resetMemory c2Store) "llm_memories" = 1 ∧
    (∀ (embed : EmbedFn) (d : Doc), matchesResetFilter (mkPoint embed d) = false) := by
  refine ⟨by decide, by decide, by decide, by decide, fun embed d => rfl⟩

/-- C5 (counterexample): an index request whose only document is gated out
(text `hi`, below the 100-character minimum) yields zero points, and the
handler answers with status `error` and HTTP 400 — not with success — so
the claim that an emptied batch returns success with count 0 fails. -/
theorem c5_counterexample :
    (indexDocuments none embed0 rnd0 "memories" [docShort] []).1 =
      ⟨"error", 0, 400, some "No valid points to index after processing"⟩ := by
  decide

/-- C5 (amended): whenever the processing loop leaves zero documents, the
index handler returns the structured error response with status `error`,
HTTP 400 and count 0. -/
theorem c5_empty_batch_returns_error (llm : Option LlmFn) (embed : EmbedFn)
    (rnd : RndFn) (reqNs : String) (docs : List Doc) (st : QStore)
    (h : (processDocs llm rnd reqNs docs).1 = []) :
    (indexDocuments llm embed rnd reqNs docs st).1 =
      ⟨"error", 0, 400, some "No valid points to index after processing"⟩ := by
  unfold indexDocuments
  simp [h]

/-- Witness for the amended C5: the concrete gated-out batch targets the
error branch. -/
theorem c5_witness :
    (indexDocuments none embed0 rnd0 "memories" [docShort] []).1 =
      ⟨"error", 0, 400, some "No valid points to index after processing"⟩ :=
  c5_empty_batch_returns_error none embed0 rnd0 "memories" [docShort] [] (by decide)

/-- C3 (counterexample): indexing the same original id `x` into the two
different pass-through namespaces `tools` and `docs` stores points with
equal — not distinct — point ids, because `uuid5` is applied to the
document id alone and the namespace is not part of the hash input. -/
theorem c3_counterexample :
    ((indexDocuments none embed0 rnd0 "tools" [docX] []).2.lookup "tools").map
        (fun c => c.points.map (fun p => p.pid)) =
      ((indexDocuments none embed0 rnd0 "docs" [docX] []).2.lookup "docs").map
        (fun c => c.points.map (fun p => p.pid)) := rfl

set_option maxHeartbeats 2000000 in
/-- C3 (amended): the stored point id of a pass-through document is a
deterministic function of the original document id alone: two documents
with the same id receive the same point id whatever their namespaces, and
re-indexing the same id into the same pass-through namespace overwrites,
leaving the point count at one. -/
theorem c3_point_id_function_of_id (embed embed' : EmbedFn) (rnd rnd' : RndFn)
    (llm llm' : Option LlmFn) (d d' : Doc) (ns : String)
    (hid : d.id = d'.id) (h1 : ns ≠ "memories") (h2 : ns ≠ "llm_memories") :
    (mkPoint embed d).pid = (mkPoint embed' d').pid ∧
    colPointCount
      (indexDocuments llm' embed' rnd' ns [d']
        (indexDocuments llm embed rnd ns [d] []).2).2 ns = 1 := by
  have hns : ¬(ns = "memories" ∨ ns = "llm_memories") := by
    intro h
    rcases h with h | h
    · exact h1 h
    · exact h2 h
  constructor
  · simp [mkPoint, hid]
  · have hbeq : (uuid5dns d.id == uuid5dns d'.id) = true := by
      rw [hid]
      exact beq_self_eq_true _
    have hproc : ∀ (l : Option LlmFn) (r : RndFn) (x : Doc),
        processDocs l r ns [x] = ([{ x with nspace := ns }], 0) := by
      intro l r x
      simp [processDocs, processStep, hns]
    have hens384 : ∀ (pts : List Point),
        ensureCollection [(ns, ⟨384, pts⟩)] ns = [(ns, ⟨384, pts⟩)] := by
      intro pts
      simp [ensureCollection, List.lookup_cons_self]
    have hfirst : (indexDocuments llm embed rnd ns [d] []).2
        = [(ns, ⟨384, [mkPoint embed { d with nspace := ns }]⟩)] := by
      simp only [indexDocuments, hproc, List.map_cons, List.map_nil]
      rw [show ensureCollection ([] : QStore) ns = [(ns, ⟨384, []⟩)] from rfl,
         show (([ns] : List String).eraseDups) = [ns] from rfl,
         List.foldl_cons, List.foldl_nil, hens384]
      simp [upsert, List.lookup_cons_self, setCol, upsertPoints, upsertPoint]
    rw [hfirst]
    have hsecond : (indexDocuments llm' embed' rnd' ns [d']
        [(ns, ⟨384, [mkPoint embed { d with nspace := ns }]⟩)]).2
        = [(ns, ⟨384, [mkPoint embed' { d' with nspace := ns }]⟩)] := by
      simp only [indexDocuments, hproc, List.map_cons, List.map_nil]
      rw [show (([ns] : List String).eraseDups) = [ns] from rfl]
      rw [show ensureCollection [(ns, ⟨384, [mkPoint embed { d with nspace := ns }]⟩)] ns
            = [(ns, ⟨384, [mkPoint embed { d with nspace := ns }]⟩)] from hens384 _]
      rw [List.foldl_cons, List.foldl_nil, hens384]
      have hpid : ((mkPoint embed { d with nspace := ns }).pid ==
          (mkPoint embed' { d' with nspace := ns }).pid) = true := hbeq
      simp [upsert, List.lookup_cons_self, setCol, upsertPoints, upsertPoint, hpid]
      intro hne
      exact absurd (eq_of_beq hpid) hne
    rw [hsecond]
    simp [colPointCount, List.lookup_cons_self]

/-- Witness for the amended C3: the concrete documents `docX` and `docX2`
share the id `x`; their point ids agree and indexing them in sequence into
`tools` leaves one point. -/
theorem c3_witness :
    (mkPoint embed0 docX).pid = (mkPoint embed0 docX2).pid ∧
    colPointCount
      (indexDocuments none embed0 rnd0 "tools" [docX2]
        (indexDocuments none embed0 rnd0 "tools" [docX] []).2).2 "tools" = 1 :=
  c3_point_id_function_of_id embed0 embed0 rnd0 rnd0 none none docX docX2 "tools"
    rfl (by decide) (by decide)

end LlmChat
